import Mathlib

/-!
Verification development for the odicom DICOM codec.

The Go sources are shallowly embedded: pure functions become Lean
functions, the stateful byte-stream decoder and encoder become explicit
state passing over a record, Go machine integers become Nat (uint16,
uint32, byte values) or Int (int64 cursor arithmetic) with explicit
truncation where the Go code converts, and fallible code returns Option
or Except.  Process panics raised through logrus.Panic or DoAssert are
modelled as the error branch of an Except, distinct from the deferred
error field carried by the stream state.

Out-of-scope collaborators of the codec (the static tag dictionary, the
UID registry and the external text decoders) are not part of the Go
sources; they are modelled from the specification and each such
definition carries a doc comment saying so.
-/

namespace Odicom

/-! ## Basic types: byte order, VR mode, tags (dicomtag/tag.go, dicomio) -/

/-- Byte order of multi-byte integer encoding (binary.LittleEndian /
binary.BigEndian in Go). -/
inductive ByteOrder where
  | little
  | big
deriving DecidableEq, Repr

/-- IsImplicitVR from dicomio: whether a two-character VR tag is emitted
with each data element (constants ImplicitVR, ExplicitVR, UnknownVR). -/
inductive IsImplicitVR where
  | implicitVR
  | explicitVR
  | unknownVR
deriving DecidableEq, Repr

/-- Tag is the pair of group and element identifying a DICOM element
(dicomtag.Tag, both fields uint16). -/
structure Tag where
  group : Nat
  element : Nat
deriving DecidableEq, Repr

/-- Compare from dicomtag/tag.go: minus one, zero or one; tags are ordered
first by group, then by element. -/
def Tag.Compare (t other : Tag) : Int :=
  if t.group < other.group then -1
  else if t.group > other.group then 1
  else if t.element < other.element then -1
  else if t.element > other.element then 1
  else 0

/-- UndefinedLength sentinel 0xffffffff from element.go. -/
def UndefinedLength : Nat := 0xffffffff

/-- ItemSeqGroup constant 0xFFFE from element.go. -/
def ItemSeqGroup : Nat := 0xFFFE

/-- PixelData tag (0x7FE0,0x0010), a distinguished tag of the codec. -/
def PixelData : Tag := ⟨0x7FE0, 0x0010⟩

/-- Item tag (0xFFFE,0xE000). -/
def Item : Tag := ⟨0xFFFE, 0xE000⟩

/-- ItemDelimitationItem tag (0xFFFE,0xE00D). -/
def ItemDelimitationItem : Tag := ⟨0xFFFE, 0xE00D⟩

/-- SequenceDelimitationItem tag (0xFFFE,0xE0DD). -/
def SequenceDelimitationItem : Tag := ⟨0xFFFE, 0xE0DD⟩

/-! ## Tag dictionary (dicomtag/tag.go) -/

/-- TagInfo from dicomtag/tag.go: dictionary detail for one tag. -/
structure TagInfo where
  tag : Tag
  vr : String
  name : String
  vm : String
deriving DecidableEq, Repr

/-- TagDict stands for the static dictionary tagDict of dicomtag.  The
table itself lives in a generated file that is an out-of-scope collaborator,
so the dictionary contents are passed as a parameter. -/
def TagDict := List TagInfo

/-- Find from dicomtag/tag.go: dictionary lookup with the generic
group-length fallback for even groups and element zero. -/
def Find (dict : TagDict) (tag : Tag) : Except String TagInfo :=
  match dict.find? (fun e => e.tag = tag) with
  | some entry => .ok entry
  | none =>
      if tag.group % 2 = 0 && tag.element = 0x0000 then
        .ok ⟨tag, "UL", "GenericGroupLength", "1"⟩
      else
        .error "Could not find tag in dictionary"

/-- VRKind from dicomtag/tag.go: the in-memory value shape of a VR. -/
inductive VRKind where
  | vrStringList
  | vrBytes
  | vrString
  | vrUInt16List
  | vrUInt32List
  | vrInt16List
  | vrInt32List
  | vrFloat32List
  | vrFloat64List
  | vrSequence
  | vrItem
  | vrTagList
  | vrDate
  | vrPixelData
deriving DecidableEq, Repr

/-- GetVRKind from dicomtag/tag.go. -/
def GetVRKind (tag : Tag) (vr : String) : VRKind :=
  if tag = Item then .vrItem
  else if tag = PixelData then .vrPixelData
  else if vr = "DA" then .vrDate
  else if vr = "AT" then .vrTagList
  else if vr = "OW" ∨ vr = "OB" then .vrBytes
  else if vr = "LT" ∨ vr = "UT" then .vrString
  else if vr = "UL" then .vrUInt32List
  else if vr = "SL" then .vrInt32List
  else if vr = "US" then .vrUInt16List
  else if vr = "SS" then .vrInt16List
  else if vr = "FL" then .vrFloat32List
  else if vr = "FD" then .vrFloat64List
  else if vr = "SQ" then .vrSequence
  else .vrStringList

/-! ## Character-set resolver (dicomio, ParseSpecificCharacterSet) -/

/-- TextDecoder stands for a golang.org/x/text encoding.Decoder.  The
decoder machinery is an external library, so a decoder is modelled by the
htmlindex name it was obtained from; `none` is the Go nil decoder
(7-bit-ASCII pass-through, the "identity" of the spec). -/
def TextDecoder := Option String
deriving DecidableEq, Repr

/-- CodingSystem from dicomio: the alphabetic, ideographic and phonetic
decoder triple. -/
structure CodingSystem where
  alphabetic : TextDecoder
  ideographic : TextDecoder
  phonetic : TextDecoder
deriving DecidableEq, Repr

/-- Mapping of DICOM charset names to golang encoding/htmlindex names,
copied from the htmlEncodingNames table in the Go source. -/
def htmlEncodingNames : List (String × String) :=
  [("ISO 2022 IR 6", "iso-8859-1"),
   ("ISO_IR 13", "shift_jis"),
   ("ISO 2022 IR 13", "shift_jis"),
   ("ISO_IR 100", "iso-8859-1"),
   ("ISO 2022 IR 100", "iso-8859-1"),
   ("ISO_IR 101", "iso-8859-2"),
   ("ISO 2022 IR 101", "iso-8859-2"),
   ("ISO_IR 109", "iso-8859-3"),
   ("ISO 2022 IR 109", "iso-8859-3"),
   ("ISO_IR 110", "iso-8859-4"),
   ("ISO 2022 IR 110", "iso-8859-4"),
   ("ISO_IR 126", "iso-ir-126"),
   ("ISO 2022 IR 126", "iso-ir-126"),
   ("ISO_IR 127", "iso-ir-127"),
   ("ISO 2022 IR 127", "iso-ir-127"),
   ("ISO_IR 138", "iso-ir-138"),
   ("ISO 2022 IR 138", "iso-ir-138"),
   ("ISO_IR 144", "iso-ir-144"),
   ("ISO 2022 IR 144", "iso-ir-144"),
   ("ISO_IR 148", "iso-ir-148"),
   ("ISO 2022 IR 148", "iso-ir-148"),
   ("ISO 2022 IR 149", "euc-kr"),
   ("ISO 2022 IR 159", "iso-2022-jp"),
   ("ISO_IR 166", "iso-ir-166"),
   ("ISO 2022 IR 166", "iso-ir-166"),
   ("ISO 2022 IR 87", "iso-2022-jp"),
   ("ISO_IR 192", "utf-8"),
   ("GB18030", "utf-8")]

/-- Lookup of one DICOM charset name in the htmlEncodingNames table. -/
def lookupCharset (name : String) : Option String :=
  (htmlEncodingNames.find? (fun p => p.1 = name)).map (fun p => p.2)

/-- Loop body of ParseSpecificCharacterSet: resolve each encoding name in
order to a decoder; an unknown name aborts with an error, a known name
with a nonempty htmlindex target yields that decoder, an empty target
would leave the Go nil decoder. -/
def resolveDecoders : List String → Except String (List TextDecoder)
  | [] => .ok []
  | name :: rest =>
      match lookupCharset name with
      | none => .error ("io.ParseSpecificCharacterSet: Unknown character set " ++ name)
      | some htmlName =>
          let c : TextDecoder := if htmlName ≠ "" then some htmlName else none
          (resolveDecoders rest).map (fun ds => c :: ds)

/-- ParseSpecificCharacterSet from dicomio: resolve the names, then fill
the triple according to how many decoders were produced. -/
def ParseSpecificCharacterSet (encodingNames : List String) :
    Except String CodingSystem := do
  let decoders ← resolveDecoders encodingNames
  match decoders with
  | [] => pure ⟨none, none, none⟩
  | [d0] => pure ⟨d0, d0, d0⟩
  | [d0, d1] => pure ⟨d0, d1, d1⟩
  | d0 :: d1 :: d2 :: _ => pure ⟨d0, d1, d2⟩

/-! ## UID registry model and transfer-syntax resolver (dicomio/transfersyntax.go) -/

/-- Modelled from the spec: the UID registry (package dicomuid, absent
from the sources) classifies UIDs by category; only the transfer-syntax
category matters to the resolver, so other categories are collapsed. -/
inductive UIDType where
  | transferSyntaxT
  | otherT (category : String)
deriving DecidableEq, Repr

/-- Modelled from the spec: one entry of the UID registry. -/
structure UIDEntry where
  uid : String
  typ : UIDType
deriving DecidableEq, Repr

/-- Modelled from the spec: dicomuid.ImplicitVRLittleEndian, the standard
UID 1.2.840.10008.1.2 named in the spec. -/
def ImplicitVRLittleEndian : String := "1.2.840.10008.1.2"

/-- Modelled from the spec: dicomuid.ExplicitVRLittleEndian, the standard
UID 1.2.840.10008.1.2.1 named in the spec. -/
def ExplicitVRLittleEndian : String := "1.2.840.10008.1.2.1"

/-- Modelled from the spec: dicomuid.ExplicitVRBigEndian, standard UID
1.2.840.10008.1.2.2. -/
def ExplicitVRBigEndian : String := "1.2.840.10008.1.2.2"

/-- Modelled from the spec: dicomuid.DeflatedExplicitVRLittleEndian,
standard UID 1.2.840.10008.1.2.1.99. -/
def DeflatedExplicitVRLittleEndian : String := "1.2.840.10008.1.2.1.99"

/-- Modelled from the spec: dicomuid.Lookup, lookup of a UID in the
registry; unknown UIDs give an error. -/
def uidLookup (registry : List UIDEntry) (uid : String) : Except String UIDEntry :=
  match registry.find? (fun e => e.uid = uid) with
  | some e => .ok e
  | none => .error ("cannot find uid " ++ uid)

/-- CanonicalTransferSyntaxUID from dicomio/transfersyntax.go.  Note that
on a lookup error the Go code returns the empty string together with a
nil error. -/
def CanonicalTransferSyntaxUID (registry : List UIDEntry) (uid : String) :
    Except String String :=
  if uid = ImplicitVRLittleEndian ∨ uid = ExplicitVRLittleEndian ∨
     uid = ExplicitVRBigEndian ∨ uid = DeflatedExplicitVRLittleEndian then
    .ok uid
  else
    match uidLookup registry uid with
    | .error _ => .ok ""
    | .ok e =>
        if e.typ ≠ .transferSyntaxT then
          .error ("dicom.CanonicalTransferSyntaxUID: not a transfer syntax: " ++ uid)
        else
          .ok ExplicitVRLittleEndian

/-- Result of ParseTransferSyntaxUID: the Go function returns a byte
order and a VR mode, returns an error, or panics in its default branch. -/
inductive ParseTSResult where
  | ok (byteorder : ByteOrder) (implicit : IsImplicitVR)
  | err (msg : String)
  | panicked
deriving DecidableEq, Repr

/-- ParseTransferSyntaxUID from dicomio/transfersyntax.go; the default
branch of the switch on the canonical UID is a process panic. -/
def ParseTransferSyntaxUID (registry : List UIDEntry) (uid : String) :
    ParseTSResult :=
  match CanonicalTransferSyntaxUID registry uid with
  | .error e => .err e
  | .ok canonical =>
      if canonical = ImplicitVRLittleEndian then
        .ok .little .implicitVR
      else if canonical = DeflatedExplicitVRLittleEndian ∨
              canonical = ExplicitVRLittleEndian then
        .ok .little .explicitVR
      else if canonical = ExplicitVRBigEndian then
        .ok .big .explicitVR
      else
        .panicked

/-! ## ByteStream decoder (dicomio Decoder)

The Go decoder wraps a bufio.Reader over an arbitrary io.Reader.  The
embedding fixes the underlying stream to a finite byte sequence `data`
(each entry a byte value below 256); `pos` is the cumulative number of
bytes consumed, `limit` the active window end, both int64 in Go.  The
deferred error is an Option; error message text is abbreviated since only
presence of an error is observable to the codec. -/

/-- Entry of the limit stack: stackEntry from the Go source, holding the
saved limit and the saved deferred error. -/
structure StackEntry where
  limit : Int
  err : Option String
deriving DecidableEq, Repr

/-- Decoder state (dicomio.Decoder).  The transfer-syntax stack is not
modelled because no settled claim touches it; byteorder and implicit stay
as plain fields. -/
structure Decoder where
  data : List Nat
  byteorder : ByteOrder
  implicit : IsImplicitVR
  pos : Int
  limit : Int
  err : Option String
  codingSystem : CodingSystem
  stateStack : List StackEntry
deriving DecidableEq, Repr

/-- MaxInt64, the initial limit installed by NewDecoder. -/
def maxInt64 : Int := 9223372036854775807

/-- NewBytesDecoder from dicomio: fresh decoder over a byte sequence with
position zero, limit MaxInt64, no deferred error, no coding system. -/
def NewBytesDecoder (data : List Nat) (byteorder : ByteOrder)
    (implicit : IsImplicitVR) : Decoder :=
  { data := data, byteorder := byteorder, implicit := implicit,
    pos := 0, limit := maxInt64, err := none,
    codingSystem := ⟨none, none, none⟩, stateStack := [] }

/-- SetError from dicomio: the first non-nil error sticks; later calls
are ignored.  (The Go code additionally rewrites the message of non-EOF
errors with the file offset, which only alters message text.) -/
def Decoder.SetError (d : Decoder) (msg : String) : Decoder :=
  match d.err with
  | none => { d with err := some msg }
  | some _ => d

/-- Number of bytes of the underlying stream not yet consumed. -/
def Decoder.streamRemaining (d : Decoder) : Int :=
  (d.data.length : Int) - d.pos

/-- EOF from dicomio: true when an error is pending, when the active
limit window is exhausted, or when a one-byte peek at the underlying
stream yields nothing. -/
def Decoder.EOF (d : Decoder) : Bool :=
  if d.err ≠ none then true
  else if d.limit - d.pos ≤ 0 then true
  else d.streamRemaining ≤ 0

/-- BytesRead from dicomio: cumulative bytes consumed. -/
def Decoder.BytesRead (d : Decoder) : Int := d.pos

/-- Bytes of the underlying stream starting at the current position. -/
def Decoder.rest (d : Decoder) : List Nat := d.data.drop d.pos.toNat

/-- Net effect of io.ReadFull over Decoder.Read for a request of k bytes:
Decoder.Read caps every chunk at the window remainder, the bufio reader
at the stream remainder, and ReadFull loops until the request is filled
or a zero-byte read reports EOF.  Altogether min(k, window, stream) bytes
are consumed, and the request fails (with the bytes short of k left as
zero values by binary.Read) whenever fewer than k bytes were available.
Note Decoder.Read does not consult the deferred error field. -/
def Decoder.readFull (d : Decoder) (k : Nat) : Decoder × Option (List Nat) :=
  let r : Int := min (min (d.limit - d.pos) d.streamRemaining) (k : Int)
  let r0 : Nat := r.toNat
  if r0 < k then
    ({ d with pos := d.pos + (r0 : Int) }, none)
  else
    ({ d with pos := d.pos + (k : Int) }, some (d.rest.take k))

/-- ReadByte from dicomio: one byte through binary.Read; on failure the
error is recorded and a zero byte is returned. -/
def Decoder.ReadByte (d : Decoder) : Decoder × Nat :=
  match d.readFull 1 with
  | (d1, some bs) => (d1, bs.headD 0)
  | (d1, none) => (d1.SetError "EOF", 0)

/-- Combination of a little- or big-endian byte list into an integer. -/
def combineBytes (bo : ByteOrder) (bs : List Nat) : Nat :=
  match bo with
  | .little => bs.foldr (fun b acc => b + 256 * acc) 0
  | .big => bs.foldl (fun acc b => 256 * acc + b) 0

/-- ReadUInt16 from dicomio via binary.Read: two bytes in the current
byte order; on failure the error is recorded and the zero value kept. -/
def Decoder.ReadUInt16 (d : Decoder) : Decoder × Nat :=
  match d.readFull 2 with
  | (d1, some bs) => (d1, combineBytes d.byteorder bs)
  | (d1, none) => (d1.SetError "EOF", 0)

/-- ReadUInt32 from dicomio via binary.Read: four bytes in the current
byte order. -/
def Decoder.ReadUInt32 (d : Decoder) : Decoder × Nat :=
  match d.readFull 4 with
  | (d1, some bs) => (d1, combineBytes d.byteorder bs)
  | (d1, none) => (d1.SetError "EOF", 0)

/-- ReadBytes from dicomio: a request beyond the window records an error
and returns nil without consuming; otherwise the request is filled from
the stream, and a stream shorter than the window leaves an EOF error with
the tail of the result zero-filled. -/
def Decoder.ReadBytes (d : Decoder) (length : Int) : Decoder × List Nat :=
  if d.limit - d.pos < length then
    (d.SetError "ReadBytes: requested more than available", [])
  else
    let k := length.toNat
    match d.readFull k with
    | (d1, some bs) => (d1, bs)
    | (d1, none) =>
        let got := (min d.streamRemaining (k : Int)).toNat
        (d1.SetError "EOF", d.rest.take got ++ List.replicate (k - got) 0)

/-- Rendering of raw bytes as an ASCII string (the Go string([]byte)
conversion on 7-bit-clean data). -/
def asciiStr (bs : List Nat) : String :=
  String.mk (bs.map (fun b => Char.ofNat b))

/-- ReadString from dicomio: ReadBytes plus conversion through the
ideographic decoder of the installed coding system; a nil decoder is the
plain string conversion.  External decoders transform bytes outside the
codec, modelled from the spec as identity on the ASCII-compatible range. -/
def Decoder.ReadString (d : Decoder) (length : Int) : Decoder × String :=
  let (d1, bs) := d.ReadBytes length
  (d1, asciiStr bs)

/-- Skip from dicomio: a request beyond the window records an error and
moves nothing; otherwise up to the stream remainder is consumed, with an
EOF error if the stream ran short of the request. -/
def Decoder.Skip (d : Decoder) (length : Int) : Decoder :=
  if d.limit - d.pos < length then
    d.SetError "Skip: requested more than available"
  else if max d.streamRemaining 0 ≥ max length 0 then
    { d with pos := d.pos + max length 0 }
  else
    ({ d with pos := d.pos + max d.streamRemaining 0 }).SetError "EOF"

/-- PushLimit from dicomio: install a window ending `bytes` past the
current position; a window end past the enclosing limit records an error
and clamps the new limit to the current position.  The enclosing limit
and the pending error (including one just recorded here) are pushed on
the state stack and the active error is cleared. -/
def Decoder.PushLimit (d : Decoder) (bytes : Int) : Decoder :=
  let newLimit := d.pos + bytes
  let d1 := if newLimit > d.limit then
      d.SetError "trying to read bytes beyond buffer end"
    else d
  let newLimit1 := if newLimit > d.limit then d.pos else newLimit
  { d1 with stateStack := ⟨d1.limit, d1.err⟩ :: d1.stateStack,
            limit := newLimit1, err := none }

/-- Frame-restore step of PopLimit, on the stack of the decoder given
next to it: pop the saved limit, and restore the saved error whenever
one was pending at push time.  Popping with an empty stack is an
out-of-range panic in Go, modelled as `none`. -/
def popFrame (d1 : Decoder) : List StackEntry → Option Decoder
  | [] => none
  | top :: rest =>
      some { d1 with limit := top.limit,
                     err := match top.err with
                            | some e => some e
                            | none => d1.err,
                     stateStack := rest }

/-- PopLimit from dicomio: skip whatever is left of the windowed region,
then restore the saved limit and error frame. -/
def Decoder.PopLimit (d : Decoder) : Option Decoder :=
  popFrame (if d.pos < d.limit then d.Skip (d.limit - d.pos) else d)
    (if d.pos < d.limit then d.Skip (d.limit - d.pos) else d).stateStack

/-! ## Limit-stack operation sequences (for the PushLimit invariant) -/

/-- Operation alphabet of the limit stack: PushLimit with a byte count
(byte counts come from uint32 VL values, hence Nat) or PopLimit. -/
inductive LimitOp where
  | push (n : Nat)
  | pop
deriving DecidableEq, Repr

/-- Run of a sequence of limit operations; `none` when a PopLimit hits an
empty stack (a process panic in Go). -/
def runOps : List LimitOp → Decoder → Option Decoder
  | [], d => some d
  | .push n :: rest, d => runOps rest (d.PushLimit (n : Int))
  | .pop :: rest, d =>
      match d.PopLimit with
      | some d1 => runOps rest d1
      | none => none

/-- Check that a limit dominates every saved limit beneath it, outermost
last: the active limit never exceeds the enclosing one. -/
def descendChain : Int → List StackEntry → Bool
  | _, [] => true
  | l, e :: rest => decide (l ≤ e.limit) && descendChain e.limit rest

/-- Well-formedness of the decoder limit state: the position is inside
the active window and the limit stack is descending inside-out. -/
def limitInv (d : Decoder) : Bool :=
  decide (d.pos ≤ d.limit) && descendChain d.limit d.stateStack

/-! ## Element header reading (element.go readTag / readImplicit / readExplicit) -/

/-- ReadOptions from element.go. -/
structure ReadOptions where
  dropPixelData : Bool := false
  returnTags : Option (List Tag) := none
  stopAtTag : Option Tag := none
deriving DecidableEq, Repr

/-- Sentinel decision of ReadElement before the header is parsed: the
element is replaced by the end-of-data pseudo element when it is pixel
data under DropPixelData, or when StopAtTag is set and both the group and
the element of the tag reach the respective StopAtTag fields. -/
def readElementStops (options : ReadOptions) (tag : Tag) : Bool :=
  (tag = PixelData && options.dropPixelData) ||
  (match options.stopAtTag with
   | some stop => decide (tag.group ≥ stop.group) && decide (tag.element ≥ stop.element)
   | none => false)

/-- Simplified retention loop of ReadDataSet over the tags of successive
top-level scalar elements: elements are retained in order until the first
one for which ReadElement answers with the end-of-data sentinel (the
ReturnTags whitelist is taken as absent). -/
def retainedTags (options : ReadOptions) : List Tag → List Tag
  | [] => []
  | t :: rest =>
      if readElementStops options t then []
      else t :: retainedTags options rest

/-- readTag from element.go: two uint16 reads. -/
def readTag (buffer : Decoder) : Decoder × Tag :=
  let (b1, group) := buffer.ReadUInt16
  let (b2, element) := b1.ReadUInt16
  (b2, ⟨group, element⟩)

/-- readImplicit from element.go: the VR comes from the dictionary with
fallback UN, the VL is a uint32; an odd defined VL records an error and
zeroes the VL. -/
def readImplicit (dict : TagDict) (buffer : Decoder) (tag : Tag) :
    Decoder × String × Nat :=
  let vr := match Find dict tag with
    | .ok entry => entry.vr
    | .error _ => "UN"
  let (b1, vl) := buffer.ReadUInt32
  if vl ≠ UndefinedLength ∧ vl % 2 ≠ 0 then
    (b1.SetError "Encountered odd length reading implicit VR", vr, 0)
  else
    (b1, vr, vl)

/-- VR codes that use the explicit long form with two reserved bytes and
a uint32 VL (the case list of the switch in readExplicit). -/
def longFormVRs : List String :=
  ["NA", "OB", "OD", "OF", "OL", "OW", "SQ", "UN", "UC", "UR", "UT"]

/-- readExplicit from element.go.  On the long form, a VL equal to the
undefined-length sentinel combined with a VR of UC, UR or VI records an
error and zeroes the VL — the Go condition tests the string VI, which no
long-form VR ever equals, where its own error message speaks of UT.  On
the short form, the uint16 sentinel 0xffff promotes to the uint32
sentinel.  An odd defined VL records an error and zeroes the VL. -/
def readExplicit (buffer : Decoder) (tag : Tag) : Decoder × String × Nat :=
  let (b1, vr) := buffer.ReadString 2
  let (b2, vl) :=
    if vr ∈ longFormVRs then
      let bSkip := b1.Skip 2
      let (b3, vl32) := bSkip.ReadUInt32
      if vl32 = UndefinedLength ∧ (vr = "UC" ∨ vr = "UR" ∨ vr = "VI") then
        (b3.SetError "UC, UR and UT may not have an undefined length", 0)
      else
        (b3, vl32)
    else
      let (b3, vl16) := b1.ReadUInt16
      (b3, if vl16 = 0xffff then UndefinedLength else vl16)
  if vl ≠ UndefinedLength ∧ vl % 2 ≠ 0 then
    (b2.SetError "Encountered odd length reading explicit VR", vr, 0)
  else
    (b2, vr, vl)

/-- Element header as assembled by ReadElement before the body parse:
the tag, the stored VR and the undefined-length flag. -/
structure ElemHdr where
  tag : Tag
  vr : String
  undefinedLength : Bool
deriving DecidableEq, Repr

/-- Header-to-element step of ReadElement: the element records whether
the VL equals the undefined-length sentinel, and the pair of VR UN with
the sentinel VL is reinterpreted as VR SQ. -/
def mkElemHdr (tag : Tag) (vr : String) (vl : Nat) : ElemHdr :=
  let elem : ElemHdr := ⟨tag, vr, vl = UndefinedLength⟩
  if vr = "UN" ∧ vl = UndefinedLength then { elem with vr := "SQ" }
  else elem

/-- Body-parse branch selected by the if-chain of ReadElement after the
header is assembled. -/
inductive ElementBranch where
  | pixelUndef
  | pixelDef
  | seqUndef
  | seqDef
  | itemUndef
  | itemDef
  | scalarUndefErr
  | scalar
deriving DecidableEq, Repr

/-- Dispatch of ReadElement on the stored VR and tag: pixel data first,
then sequences, then items, then the scalar branch in which an undefined
VL is an error. -/
def elementBranch (tag : Tag) (vr : String) (vl : Nat) : ElementBranch :=
  if tag = PixelData then
    (if vl = UndefinedLength then .pixelUndef else .pixelDef)
  else if vr = "SQ" then
    (if vl = UndefinedLength then .seqUndef else .seqDef)
  else if tag = Item then
    (if vl = UndefinedLength then .itemUndef else .itemDef)
  else if vl = UndefinedLength then .scalarUndefErr
  else .scalar

/-- VR and VL reading step of ReadElement: the VR mode is the decoder
mode, overridden to implicit for the delimiter group 0xFFFE; the mode
UnknownVR fails the DoAssert in the Go source, modelled as the error
branch. -/
def readVRVL (dict : TagDict) (d : Decoder) (tag : Tag) :
    Except String (Decoder × String × Nat) :=
  let implicit := if tag.group = ItemSeqGroup then .implicitVR else d.implicit
  match implicit with
  | .implicitVR => .ok (readImplicit dict d tag)
  | .explicitVR => .ok (readExplicit d tag)
  | .unknownVR => .error "DoAssert: implicit == ExplicitVR"

/-- Result of the header phase of ReadElement. -/
inductive HeaderResult where
  | endOfData
  | header (h : ElemHdr) (vl : Nat)
deriving DecidableEq, Repr

/-- Header phase of ReadElement (tag read, sentinel decision, VR and VL
read, element assembly with the UN-to-SQ promotion). -/
def ReadElementHeader (dict : TagDict) (d : Decoder) (options : ReadOptions) :
    Except String (Decoder × HeaderResult) := do
  let (d1, tag) := readTag d
  if readElementStops options tag then
    .ok (d1, .endOfData)
  else
    let (d2, vr, vl) ← readVRVL dict d1 tag
    .ok (d2, .header (mkElemHdr tag vr vl) vl)

/-! ## ByteStream encoder (dicomio Encoder)

The bytes-encoder variant writes into an in-memory buffer, modelled as a
byte list; binary.Write onto a bytes.Buffer cannot fail, so the write
primitives never set the deferred error themselves. -/

/-- Encoder state (dicomio.Encoder over a bytes.Buffer).  The
transfer-syntax stack is not modelled; byteorder and implicit stay as
plain fields. -/
structure Encoder where
  out : List Nat
  byteorder : ByteOrder
  implicit : IsImplicitVR
  err : Option String
deriving DecidableEq, Repr

/-- NewBytesEncoder from dicomio. -/
def NewBytesEncoder (byteorder : ByteOrder) (implicit : IsImplicitVR) : Encoder :=
  { out := [], byteorder := byteorder, implicit := implicit, err := none }

/-- SetError on the encoder: first error sticks. -/
def Encoder.SetError (e : Encoder) (msg : String) : Encoder :=
  match e.err with
  | none => { e with err := some msg }
  | some _ => e

/-- Little- or big-endian byte rendering of a uint16 value. -/
def u16Bytes (bo : ByteOrder) (v : Nat) : List Nat :=
  match bo with
  | .little => [v % 256, v / 256 % 256]
  | .big => [v / 256 % 256, v % 256]

/-- Little- or big-endian byte rendering of a uint32 value. -/
def u32Bytes (bo : ByteOrder) (v : Nat) : List Nat :=
  match bo with
  | .little => [v % 256, v / 256 % 256, v / 65536 % 256, v / 16777216 % 256]
  | .big => [v / 16777216 % 256, v / 65536 % 256, v / 256 % 256, v % 256]

/-- WriteByte from dicomio. -/
def Encoder.WriteByte (e : Encoder) (v : Nat) : Encoder :=
  { e with out := e.out ++ [v % 256] }

/-- WriteUInt16 from dicomio. -/
def Encoder.WriteUInt16 (e : Encoder) (v : Nat) : Encoder :=
  { e with out := e.out ++ u16Bytes e.byteorder (v % 65536) }

/-- WriteUInt32 from dicomio. -/
def Encoder.WriteUInt32 (e : Encoder) (v : Nat) : Encoder :=
  { e with out := e.out ++ u32Bytes e.byteorder (v % 4294967296) }

/-- WriteInt16 from dicomio: two-complement encoding via binary.Write. -/
def Encoder.WriteInt16 (e : Encoder) (v : Int) : Encoder :=
  e.WriteUInt16 (v.emod 65536).toNat

/-- WriteInt32 from dicomio. -/
def Encoder.WriteInt32 (e : Encoder) (v : Int) : Encoder :=
  e.WriteUInt32 (v.emod 4294967296).toNat

/-- Bytes of a 7-bit-clean string (the Go []byte(s) conversion). -/
def strBytes (s : String) : List Nat :=
  s.data.map Char.toNat

/-- WriteString from dicomio: the raw bytes, no prefix, no padding. -/
def Encoder.WriteString (e : Encoder) (v : String) : Encoder :=
  { e with out := e.out ++ strBytes v }

/-- WriteZeros from dicomio. -/
def Encoder.WriteZeros (e : Encoder) (len : Nat) : Encoder :=
  { e with out := e.out ++ List.replicate len 0 }

/-- WriteBytes from dicomio. -/
def Encoder.WriteBytes (e : Encoder) (v : List Nat) : Encoder :=
  { e with out := e.out ++ v }

/-! ## Element values and the element writer (tag.go WriteElement) -/

/-- PixelDataInfo from element.go: the basic offset table and the parsed
frames. -/
structure PixelDataInfo where
  offsets : List Nat
  frames : List (List Nat)
deriving DecidableEq, Repr

/-- Value atom of an element, a closed union in place of the Go
interface.  Nested sequence items are Go *Element values; this embedding
carries none, so the type assertions of the sequence branches fail on
every atom here, exactly as they do in Go on any non-Element value.
Float atoms are likewise not carried, so the float cases of the writer
fail their assertions on every atom here. -/
inductive DValue where
  | str (s : String)
  | u16 (v : Nat)
  | u32 (v : Nat)
  | i16 (v : Int)
  | i32 (v : Int)
  | bytes (b : List Nat)
  | tagV (t : Tag)
  | pixel (p : PixelDataInfo)
deriving DecidableEq, Repr

/-- Element from element.go, restricted to the atom union above. -/
structure Element where
  tag : Tag
  vr : String
  undefinedLength : Bool
  value : List DValue
deriving DecidableEq, Repr

/-- encodeElementHeader from tag.go.  DoAssert failures (odd defined VL,
VR not two characters under explicit mode, unknown VR mode) are process
panics, modelled as the error branch. -/
def encodeElementHeader (e : Encoder) (tag : Tag) (vr : String) (vl : Nat) :
    Except String Encoder := do
  if ¬ (vl = UndefinedLength ∨ vl % 2 = 0) then
    throw "DoAssert: vl"
  let e1 := (e.WriteUInt16 tag.group).WriteUInt16 tag.element
  let implicit := if tag.group = ItemSeqGroup then IsImplicitVR.implicitVR
    else e1.implicit
  if implicit = .explicitVR then
    if vr.length ≠ 2 then throw "DoAssert: len(vr) == 2"
    let e2 := e1.WriteString vr
    if vr ∈ longFormVRs then
      pure ((e2.WriteZeros 2).WriteUInt32 vl)
    else
      pure (e2.WriteUInt16 vl)
  else if implicit = .implicitVR then
    pure (e1.WriteUInt32 vl)
  else
    throw "DoAssert: implicit == ImplicitVR"

/-- writeRawItem from tag.go: an Item header carrying the byte length,
then the bytes. -/
def writeRawItem (e : Encoder) (data : List Nat) : Except String Encoder := do
  let e1 ← encodeElementHeader e Item "NA" (data.length % 4294967296)
  pure (e1.WriteBytes data)

/-- writeBasicOffsetTable from tag.go: the offsets as uint32 values in a
sub-encoder, emitted as one raw item. -/
def writeBasicOffsetTable (e : Encoder) (offsets : List Nat) :
    Except String Encoder :=
  let sube := offsets.foldl (fun acc v => acc.WriteUInt32 v)
    (NewBytesEncoder e.byteorder .implicitVR)
  writeRawItem e sube.out

/-- Join of the string atoms of a value list with backslashes, as the UI
and default cases of the writer build it: a non-string atom records an
error on the main encoder and is skipped, but its position still counts
for the separator. -/
def joinStringValues (tag : Tag) (values : List DValue) (e : Encoder) :
    Encoder × String :=
  let step := fun (acc : Encoder × String × Nat) (v : DValue) =>
    let (e, s, i) := acc
    match v with
    | .str substr => (e, s ++ (if i > 0 then "\\" else "") ++ substr, i + 1)
    | _ => (e.SetError "expect string value", s, i + 1)
  let (e1, s, _) := values.foldl step (e, "", 0)
  (e1, s)

/-- OW rewrite loop of the writer: uint16 values read little-endian (the
native byte order) from the blob and written through the sub-encoder in
its byte order. -/
def writeOWPairs (sube : Encoder) : List Nat → Encoder
  | a :: b :: rest => writeOWPairs (sube.WriteUInt16 (a + 256 * b)) rest
  | _ => sube

/-- Scalar-branch switch of WriteElement: each value atom is checked
against the VR and written into the sub-encoder; a mismatched atom
records an error on the main encoder and the loop continues (for OW and
OB the case breaks instead).  Returns the main encoder and the
sub-encoder. -/
def writeScalarValues (tag : Tag) (vr : String) (values : List DValue)
    (e sube : Encoder) : Encoder × Encoder :=
  if vr = "US" then
    values.foldl (fun (acc : Encoder × Encoder) v =>
      match v with
      | .u16 x => (acc.1, acc.2.WriteUInt16 x)
      | _ => (acc.1.SetError "expect uint16 value", acc.2)) (e, sube)
  else if vr = "UL" then
    values.foldl (fun (acc : Encoder × Encoder) v =>
      match v with
      | .u32 x => (acc.1, acc.2.WriteUInt32 x)
      | _ => (acc.1.SetError "expect uint32 value", acc.2)) (e, sube)
  else if vr = "SL" then
    values.foldl (fun (acc : Encoder × Encoder) v =>
      match v with
      | .i32 x => (acc.1, acc.2.WriteInt32 x)
      | _ => (acc.1.SetError "expect int32 value", acc.2)) (e, sube)
  else if vr = "SS" then
    values.foldl (fun (acc : Encoder × Encoder) v =>
      match v with
      | .i16 x => (acc.1, acc.2.WriteInt16 x)
      | _ => (acc.1.SetError "expect int16 value", acc.2)) (e, sube)
  else if vr = "FL" ∨ vr = "OF" then
    values.foldl (fun (acc : Encoder × Encoder) _ =>
      (acc.1.SetError "expect float32 value", acc.2)) (e, sube)
  else if vr = "FD" ∨ vr = "OD" then
    values.foldl (fun (acc : Encoder × Encoder) _ =>
      (acc.1.SetError "expect float64 value", acc.2)) (e, sube)
  else if vr = "OW" ∨ vr = "OB" then
    match values with
    | [v0] =>
        match v0 with
        | .bytes bs =>
            if vr = "OW" then
              if bs.length % 2 ≠ 0 then
                (e.SetError "expect even length binary string", sube)
              else
                (e, writeOWPairs sube bs)
            else
              let sube1 := sube.WriteBytes bs
              (e, if bs.length % 2 = 1 then sube1.WriteByte 0 else sube1)
        | _ => (e.SetError "expect binary string", sube)
    | _ => (e.SetError "expect a single value", sube)
  else if vr = "UI" then
    let (e1, s) := joinStringValues tag values e
    let sube1 := sube.WriteString s
    (e1, if s.length % 2 = 1 then sube1.WriteByte 0 else sube1)
  else
    let (e1, s) := joinStringValues tag values e
    let sube1 := sube.WriteString s
    (e1, if s.length % 2 = 1 then sube1.WriteByte 0x20 else sube1)

/-- WriteElement from tag.go, over the atom union of this embedding.
Process panics (DoAssert failures, out-of-range indexing on an empty
PixelData value list) are the error branch of the Except; deferred
errors stay inside the returned encoder. -/
def WriteElement (dict : TagDict) (e : Encoder) (elem : Element) :
    Except String Encoder := do
  let entryRes := Find dict elem.tag
  let vrDecision : String ⊕ Encoder :=
    if elem.vr = "" then
      .inl (match entryRes with | .ok entry => entry.vr | .error _ => "UN")
    else
      match entryRes with
      | .ok entry =>
          if entry.vr ≠ elem.vr ∧
             GetVRKind elem.tag entry.vr ≠ GetVRKind elem.tag elem.vr then
            .inr (e.SetError "VR value mismatch with the standard")
          else .inl elem.vr
      | .error _ => .inl elem.vr
  match vrDecision with
  | .inr eBad => pure eBad
  | .inl vr => do
    if vr = "" then throw "DoAssert: vr is nonempty"
    if elem.tag = PixelData then
      let e1 := if elem.value.length ≠ 1 then
          e.SetError "PixelData element must have one value of type PixelDataInfo"
        else e
      match elem.value with
      | [] => throw "index out of range"
      | v0 :: _ =>
        let (e2, image) : Encoder × PixelDataInfo :=
          match v0 with
          | .pixel p => (e1, p)
          | _ => (e1.SetError "PixelData value must be a PixelDataInfo",
                  ⟨[], []⟩)
        if elem.undefinedLength then
          let e3 ← encodeElementHeader e2 elem.tag vr UndefinedLength
          let e4 ← writeBasicOffsetTable e3 image.offsets
          let e5 ← image.frames.foldlM (fun acc f => writeRawItem acc f) e4
          encodeElementHeader e5 SequenceDelimitationItem "" 0
        else
          if image.frames.length ≠ 1 then
            throw "DoAssert: len(image.Frames) == 1"
          let frame0 := image.frames.headD []
          let e3 ← encodeElementHeader e2 elem.tag vr
            (frame0.length % 4294967296)
          pure (e3.WriteBytes frame0)
    else if vr = "SQ" then
      if elem.undefinedLength then
        let e1 ← encodeElementHeader e elem.tag vr UndefinedLength
        match elem.value with
        | [] => encodeElementHeader e1 SequenceDelimitationItem "" 0
        | _ :: _ => pure (e1.SetError "SQ element value must be an Item")
      else
        match elem.value with
        | [] => do
            let e1 ← encodeElementHeader e elem.tag vr 0
            pure (e1.WriteBytes [])
        | _ :: _ => pure (e.SetError "SQ element value must be an Item")
    else if vr = "NA" then
      if elem.undefinedLength then
        let e1 ← encodeElementHeader e elem.tag vr UndefinedLength
        match elem.value with
        | [] => encodeElementHeader e1 ItemDelimitationItem "" 0
        | _ :: _ => pure (e1.SetError "Item values must be a dicom.Element")
      else
        match elem.value with
        | [] => do
            let e1 ← encodeElementHeader e elem.tag vr 0
            pure (e1.WriteBytes [])
        | _ :: _ => pure (e.SetError "Item values must be a dicom.Element")
    else
      if elem.undefinedLength then
        pure (e.SetError "encoding undefined-length element not supported")
      else
        let sube0 := NewBytesEncoder e.byteorder e.implicit
        let (e1, sube) := writeScalarValues elem.tag vr elem.value e sube0
        match sube.err with
        | some msg => pure (e1.SetError msg)
        | none => do
            let bytes := sube.out
            let e2 ← encodeElementHeader e1 elem.tag vr
              (bytes.length % 4294967296)
            pure (e2.WriteBytes bytes)

/-! ## Theorems for the claims -/

/-- C1: in explicit-VR mode the element header reader is claimed to treat
the undefined-length sentinel VL combined with VR UC, UR or UT as an
error, recording it and zeroing the VL.  The code tests the impossible
string VI in place of UT, so a UT header with sentinel VL sails through
with no error and the VL still equal to the sentinel, while UC and UR
behave as claimed — evaluated here on the three eight-byte explicit
headers. -/
theorem c1_readExplicit_ut_undefined_not_rejected :
    (readExplicit (NewBytesDecoder [0x55, 0x54, 0, 0, 0xFF, 0xFF, 0xFF, 0xFF]
        .little .explicitVR) ⟨0x0008, 0x0100⟩ |>.2.1) = "UT" ∧
    (readExplicit (NewBytesDecoder [0x55, 0x54, 0, 0, 0xFF, 0xFF, 0xFF, 0xFF]
        .little .explicitVR) ⟨0x0008, 0x0100⟩ |>.2.2) = UndefinedLength ∧
    (readExplicit (NewBytesDecoder [0x55, 0x54, 0, 0, 0xFF, 0xFF, 0xFF, 0xFF]
        .little .explicitVR) ⟨0x0008, 0x0100⟩ |>.1.err) = none ∧
    (readExplicit (NewBytesDecoder [0x55, 0x43, 0, 0, 0xFF, 0xFF, 0xFF, 0xFF]
        .little .explicitVR) ⟨0x0008, 0x0100⟩ |>.2.2) = 0 ∧
    (readExplicit (NewBytesDecoder [0x55, 0x43, 0, 0, 0xFF, 0xFF, 0xFF, 0xFF]
        .little .explicitVR) ⟨0x0008, 0x0100⟩ |>.1.err).isSome = true ∧
    (readExplicit (NewBytesDecoder [0x55, 0x52, 0, 0, 0xFF, 0xFF, 0xFF, 0xFF]
        .little .explicitVR) ⟨0x0008, 0x0100⟩ |>.2.2) = 0 ∧
    (readExplicit (NewBytesDecoder [0x55, 0x52, 0, 0, 0xFF, 0xFF, 0xFF, 0xFF]
        .little .explicitVR) ⟨0x0008, 0x0100⟩ |>.1.err).isSome = true := by
  decide

/-- C2: resolving an unknown UID is claimed to be an error, but the Go
lookup-failure branch of CanonicalTransferSyntaxUID discards the error
and returns the empty string with a nil error (contradicting the doc
comment of the function), after which ParseTransferSyntaxUID reaches its
panicking default branch; a wrong-category UID, by contrast, is rejected
with an error as claimed. -/
theorem c2_unknown_uid_resolves_without_error :
    CanonicalTransferSyntaxUID [] "1.2.3.4.5" = .ok "" ∧
    ParseTransferSyntaxUID [] "1.2.3.4.5" = .panicked ∧
    (CanonicalTransferSyntaxUID
      [⟨"1.2.840.10008.5.1.4.1.1.2", .otherT "SOP Class"⟩]
      "1.2.840.10008.5.1.4.1.1.2" =
      .error
        "dicom.CanonicalTransferSyntaxUID: not a transfer syntax: 1.2.840.10008.5.1.4.1.1.2") ∧
    (ParseTransferSyntaxUID
      [⟨"1.2.840.10008.5.1.4.1.1.2", .otherT "SOP Class"⟩]
      "1.2.840.10008.5.1.4.1.1.2" =
      .err
        "dicom.CanonicalTransferSyntaxUID: not a transfer syntax: 1.2.840.10008.5.1.4.1.1.2") := by
  exact ⟨rfl, rfl, rfl, rfl⟩

/-- Modelled from the spec: the dictionary entry for the tag
(0x0010,0x0010) PatientName with VR LO, as the concrete scenarios of the
spec give it. -/
def patientNameDict : TagDict :=
  [⟨⟨0x0010, 0x0010⟩, "LO", "PatientName", "1"⟩]

/-- C5: serialising the element (0x0010,0x0010) VR LO with the single
value DOE^JOHN under explicit VR little endian produces exactly the
sixteen on-wire bytes 10 00 10 00 4C 4F 08 00 44 4F 45 5E 4A 4F 48 4E,
with no deferred error. -/
theorem c5_patientname_explicit_le_wire_bytes :
    WriteElement patientNameDict (NewBytesEncoder .little .explicitVR)
      ⟨⟨0x0010, 0x0010⟩, "LO", false, [.str "DOE^JOHN"]⟩ =
    .ok { out := [0x10, 0x00, 0x10, 0x00, 0x4C, 0x4F, 0x08, 0x00,
                  0x44, 0x4F, 0x45, 0x5E, 0x4A, 0x4F, 0x48, 0x4E],
          byteorder := .little, implicit := .explicitVR, err := none } := by
  rfl

/-- C3: with a stop_at_tag option set (and DropPixelData clear),
ReadElement answers the end-of-data sentinel exactly when both the group
and the element of the tag reach the respective StopAtTag fields — a
conjunctive per-field test, witnessed as non-lexicographic by the tag
(0x0021,0x0005), which is above (0x0020,0x000D) in the total tag order
yet does not stop; and on a body starting (0x0010,0x0010),
(0x0020,0x000D), (0x0020,0x000E) with stop tag (0x0020,0x000D) only the
first element is retained. -/
theorem c3_stop_at_tag_conjunctive :
    (∀ (stop tag : Tag),
      readElementStops ⟨false, none, some stop⟩ tag = true ↔
        stop.group ≤ tag.group ∧ stop.element ≤ tag.element) ∧
    retainedTags ⟨false, none, some ⟨0x0020, 0x000D⟩⟩
      [⟨0x0010, 0x0010⟩, ⟨0x0020, 0x000D⟩, ⟨0x0020, 0x000E⟩] =
      [⟨0x0010, 0x0010⟩] ∧
    readElementStops ⟨false, none, some ⟨0x0020, 0x000D⟩⟩ ⟨0x0021, 0x0005⟩ =
      false ∧
    Tag.Compare ⟨0x0021, 0x0005⟩ ⟨0x0020, 0x000D⟩ = 1 := by
  refine ⟨fun stop tag => ?_, by decide, by decide, by decide⟩
  simp [readElementStops, ge_iff_le]

/-- Decoder with a recorded deferred error and one unread byte 0xAB. -/
def c4Decoder : Decoder :=
  (NewBytesDecoder [0xAB] .little .explicitVR).SetError "parse failure"

/-- C4 counterexample: on a decoder whose deferred error is set while an
unread byte remains in the window, ReadByte is not a no-op — it returns
the byte value 0xAB rather than zero and consumes one byte of input. -/
theorem c4_read_after_error_consumes :
    c4Decoder.err.isSome = true ∧
    c4Decoder.ReadByte.2 = 0xAB ∧
    c4Decoder.ReadByte.1.pos = c4Decoder.pos + 1 := by
  decide

/-- Helper: the optional head of the one-element take is the head. -/
theorem head_take_one {α : Type} (l : List α) :
    (l.take 1).head? = l.head? := by
  cases l <;> rfl

/-- Helper: the optional head after dropping n entries is the entry at n. -/
theorem head_drop_eq_get {α : Type} (l : List α) (n : Nat) :
    (l.drop n).head? = l[n]? := by
  induction l generalizing n with
  | nil => cases n <;> rfl
  | cons a t ih =>
      cases n with
      | zero => simp
      | succ m => simp only [List.drop_succ_cons, List.getElem?_cons_succ, ih m]

/-- C4 amended: the first non-nil error recorded on the decoder is sticky
(a later SetError never replaces it), but typed reads do not consult the
error field: ReadByte issued after the error, with a byte available
inside the window, still consumes that byte and returns its value. -/
theorem c4_sticky_error_reads_still_consume :
    ∀ (d : Decoder) (m1 m2 : String), d.err = some m1 →
      (d.SetError m2).err = some m1 ∧
      (0 ≤ d.pos → d.pos + 1 ≤ d.limit → d.pos + 1 ≤ (d.data.length : Int) →
        d.ReadByte.1.pos = d.pos + 1 ∧
        d.ReadByte.2 = d.data.getD d.pos.toNat 0) := by
  intro d m1 m2 h
  refine ⟨by simp [Decoder.SetError, h], fun h0 h1 h2 => ?_⟩
  have hcond : ¬(d.limit ≤ d.pos ∨ d.streamRemaining ≤ 0) := by
    simp only [Decoder.streamRemaining, not_or, not_le]
    omega
  simp [Decoder.ReadByte, Decoder.readFull, hcond, Decoder.rest,
        head_take_one, head_drop_eq_get, List.getD]

/-- Decoder for the C4 witness: two unread bytes, error already set. -/
def c4WitDecoder : Decoder :=
  (NewBytesDecoder [7, 9] .little .explicitVR).SetError "boom"

/-- C4 witness: the amended statement applied to a concrete decoder. -/
theorem c4_sticky_witness :
    (c4WitDecoder.SetError "other").err = some "boom" ∧
    c4WitDecoder.ReadByte.1.pos = c4WitDecoder.pos + 1 ∧
    c4WitDecoder.ReadByte.2 =
      c4WitDecoder.data.getD c4WitDecoder.pos.toNat 0 := by
  have h := c4_sticky_error_reads_still_consume c4WitDecoder "boom" "other" rfl
  have h2 := h.2 (by decide) (by decide) (by decide)
  exact ⟨h.1, h2.1, h2.2⟩

/-- Helper: an unknown charset name anywhere in the list makes the
decoder-resolution loop of ParseSpecificCharacterSet fail. -/
theorem resolveDecoders_error_of_unknown :
    ∀ (names : List String) (n : String), n ∈ names → lookupCharset n = none →
      ∃ msg, resolveDecoders names = .error msg := by
  intro names
  induction names with
  | nil => intro n h _; cases h
  | cons head rest ih =>
      intro n hmem hlk
      cases hhead : lookupCharset head with
      | none =>
          exact ⟨"io.ParseSpecificCharacterSet: Unknown character set " ++ head,
                 by simp [resolveDecoders, hhead]⟩
      | some hn =>
          cases hmem with
          | head => rw [hhead] at hlk; cases hlk
          | tail _ hmem2 =>
              rcases ih n hmem2 hlk with ⟨msg, hmsg⟩
              exact ⟨msg, by simp [resolveDecoders, hhead, hmsg, Except.map]⟩

/-- C6: the character-set resolver fills the alphabetic, ideographic and
phonetic slots by the length of the resolved decoder list — empty gives
the three identity (nil) decoders, one decoder fills all three slots, two
give the pattern d0, d1, d1, three or more give d0, d1, d2 — uniformly
expressed through clamped indexing; and any unrecognised name in the list
yields an error. -/
theorem c6_charset_triple_by_length :
    (∀ (names : List String), resolveDecoders names = .ok [] →
      ParseSpecificCharacterSet names = .ok ⟨none, none, none⟩) ∧
    (∀ (names : List String) (d0 : TextDecoder),
      resolveDecoders names = .ok [d0] →
      ParseSpecificCharacterSet names = .ok ⟨d0, d0, d0⟩) ∧
    (∀ (names : List String) (d0 d1 : TextDecoder),
      resolveDecoders names = .ok [d0, d1] →
      ParseSpecificCharacterSet names = .ok ⟨d0, d1, d1⟩) ∧
    (∀ (names : List String) (d0 d1 d2 : TextDecoder)
      (rest : List TextDecoder),
      resolveDecoders names = .ok (d0 :: d1 :: d2 :: rest) →
      ParseSpecificCharacterSet names = .ok ⟨d0, d1, d2⟩) ∧
    (∀ (names : List String) (n : String), n ∈ names → lookupCharset n = none →
      ∃ msg, ParseSpecificCharacterSet names = .error msg) := by
  refine ⟨?_, ?_, ?_, ?_, ?_⟩
  · intro names h
    unfold ParseSpecificCharacterSet
    rw [h]; rfl
  · intro names d0 h
    unfold ParseSpecificCharacterSet
    rw [h]; rfl
  · intro names d0 d1 h
    unfold ParseSpecificCharacterSet
    rw [h]; rfl
  · intro names d0 d1 d2 rest h
    unfold ParseSpecificCharacterSet
    rw [h]; rfl
  · intro names n hmem hlk
    rcases resolveDecoders_error_of_unknown names n hmem hlk with ⟨msg, hmsg⟩
    refine ⟨msg, ?_⟩
    unfold ParseSpecificCharacterSet
    rw [hmsg]; rfl

/-- C6 witness: the triple-filling rule applied to the empty list, a
two-decoder list and a list holding an unknown name. -/
theorem c6_charset_witness :
    ParseSpecificCharacterSet ["ISO 2022 IR 13", "ISO 2022 IR 87"] =
      .ok ⟨some "shift_jis", some "iso-2022-jp", some "iso-2022-jp"⟩ ∧
    ParseSpecificCharacterSet [] = .ok ⟨none, none, none⟩ ∧
    ∃ msg, ParseSpecificCharacterSet ["bogus"] = .error msg := by
  refine ⟨?_, ?_, ?_⟩
  · exact c6_charset_triple_by_length.2.2.1 ["ISO 2022 IR 13", "ISO 2022 IR 87"]
      (some "shift_jis") (some "iso-2022-jp") (by rfl)
  · exact c6_charset_triple_by_length.1 [] (by rfl)
  · exact c6_charset_triple_by_length.2.2.2.2 ["bogus"] "bogus" (by simp) (by rfl)

/-- C7: an element header carrying VR UN together with the
undefined-length sentinel VL is reinterpreted by ReadElement as VR SQ
with the undefined-length flag set, and (for a tag other than PixelData)
the body parse then takes the undefined-length sequence branch. -/
theorem c7_un_undefined_promoted_to_sq :
    ∀ (tag : Tag) (vr : String) (vl : Nat), vr = "UN" → vl = UndefinedLength →
      (mkElemHdr tag vr vl).vr = "SQ" ∧
      (mkElemHdr tag vr vl).undefinedLength = true ∧
      (tag ≠ PixelData →
        elementBranch tag (mkElemHdr tag vr vl).vr vl = .seqUndef) := by
  intro tag vr vl hvr hvl
  subst hvr; subst hvl
  refine ⟨by simp [mkElemHdr], by simp [mkElemHdr], fun hne => ?_⟩
  simp [mkElemHdr, elementBranch, hne]

/-- C7 witness: the promotion applied to the concrete header with tag
(0x0008,0x0100), VR UN and VL 0xffffffff. -/
theorem c7_promotion_witness :
    (mkElemHdr ⟨0x0008, 0x0100⟩ "UN" 0xffffffff).vr = "SQ" ∧
    (mkElemHdr ⟨0x0008, 0x0100⟩ "UN" 0xffffffff).undefinedLength = true ∧
    elementBranch ⟨0x0008, 0x0100⟩ (mkElemHdr ⟨0x0008, 0x0100⟩ "UN" 0xffffffff).vr
      0xffffffff = .seqUndef := by
  have h := c7_un_undefined_promoted_to_sq ⟨0x0008, 0x0100⟩ "UN" 0xffffffff rfl rfl
  exact ⟨h.1, h.2.1, h.2.2 (by decide)⟩

/-- C9: EOF answers true whenever a deferred error is recorded, whatever
bytes remain in the window; with no error recorded it is true exactly
when the active limit window is exhausted or the underlying stream is. -/
theorem c9_eof_error_or_exhaustion :
    ∀ (d : Decoder),
      (d.err ≠ none → d.EOF = true) ∧
      (d.err = none →
        (d.EOF = true ↔ d.limit ≤ d.pos ∨ (d.data.length : Int) ≤ d.pos)) := by
  intro d
  constructor
  · intro h
    simp [Decoder.EOF, h]
  · intro h
    by_cases h1 : d.limit - d.pos ≤ 0
    · simp [Decoder.EOF, h, h1]
      omega
    · simp [Decoder.EOF, Decoder.streamRemaining, h, h1]
      omega

/-- C9 witness: EOF applied to a decoder with a pending error and unread
bytes, and to an error-free decoder with an exhausted stream. -/
theorem c9_eof_witness :
    ((NewBytesDecoder [1, 2, 3] .little .explicitVR).SetError "e").EOF = true ∧
    (NewBytesDecoder [] .little .explicitVR).EOF = true := by
  constructor
  · exact (c9_eof_error_or_exhaustion
      ((NewBytesDecoder [1, 2, 3] .little .explicitVR).SetError "e")).1
      (by decide)
  · exact ((c9_eof_error_or_exhaustion
      (NewBytesDecoder [] .little .explicitVR)).2 rfl).2 (Or.inr (by decide))

/-! ## Limit-stack invariant lemmas (for C8) -/

/-- SetError leaves the position unchanged. -/
theorem SetError_pos (d : Decoder) (m : String) : (d.SetError m).pos = d.pos := by
  cases hd : d.err <;> simp [Decoder.SetError, hd]

/-- SetError leaves the limit unchanged. -/
theorem SetError_limit (d : Decoder) (m : String) :
    (d.SetError m).limit = d.limit := by
  cases hd : d.err <;> simp [Decoder.SetError, hd]

/-- SetError leaves the limit stack unchanged. -/
theorem SetError_stateStack (d : Decoder) (m : String) :
    (d.SetError m).stateStack = d.stateStack := by
  cases hd : d.err <;> simp [Decoder.SetError, hd]

/-- SetError always leaves an error recorded. -/
theorem SetError_isSome (d : Decoder) (m : String) :
    (d.SetError m).err.isSome = true := by
  cases hd : d.err <;> simp [Decoder.SetError, hd]

/-- Skip leaves the limit unchanged. -/
theorem Skip_limit (d : Decoder) (n : Int) : (d.Skip n).limit = d.limit := by
  unfold Decoder.Skip
  split
  · exact SetError_limit d _
  · split
    · rfl
    · exact SetError_limit _ _

/-- Skip leaves the limit stack unchanged. -/
theorem Skip_stateStack (d : Decoder) (n : Int) :
    (d.Skip n).stateStack = d.stateStack := by
  unfold Decoder.Skip
  split
  · exact SetError_stateStack d _
  · split
    · rfl
    · exact SetError_stateStack _ _

/-- Skip keeps the position inside the active window. -/
theorem Skip_pos_le (d : Decoder) (n : Int) (h : d.pos ≤ d.limit) :
    (d.Skip n).pos ≤ d.limit := by
  unfold Decoder.Skip
  split
  · rw [SetError_pos]; exact h
  · rename_i h1
    split
    · rename_i h2
      simp only
      omega
    · rename_i h2
      rw [SetError_pos]
      simp only
      omega

/-- PushLimit preserves the limit-stack invariant for nonnegative byte
counts. -/
theorem pushLimit_inv (d : Decoder) (n : Int) (hn : 0 ≤ n)
    (h : limitInv d = true) : limitInv (d.PushLimit n) = true := by
  simp only [limitInv, Bool.and_eq_true, decide_eq_true_eq] at h
  obtain ⟨h1, h2⟩ := h
  by_cases hov : d.pos + n > d.limit
  · simp only [limitInv, Decoder.PushLimit, hov, if_pos, if_true,
      Bool.and_eq_true, decide_eq_true_eq, descendChain,
      SetError_pos, SetError_limit, SetError_stateStack]
    exact ⟨le_refl _, by simpa [SetError_limit] using h1, by
      simpa [SetError_limit, SetError_stateStack] using h2⟩
  · simp only [limitInv, Decoder.PushLimit, hov, if_neg, if_false,
      Bool.and_eq_true, decide_eq_true_eq, descendChain]
    exact ⟨by omega, by omega, h2⟩

/-- PopLimit preserves the limit-stack invariant. -/
theorem popLimit_inv (d dOut : Decoder) (h : limitInv d = true)
    (hpop : d.PopLimit = some dOut) : limitInv dOut = true := by
  simp only [limitInv, Bool.and_eq_true, decide_eq_true_eq] at h
  obtain ⟨h1, h2⟩ := h
  unfold Decoder.PopLimit at hpop
  set d1 := if d.pos < d.limit then d.Skip (d.limit - d.pos) else d with hd1
  have hs : d1.stateStack = d.stateStack := by
    rw [hd1]; split
    · exact Skip_stateStack _ _
    · rfl
  have hp : d1.pos ≤ d.limit := by
    rw [hd1]; split
    · exact Skip_pos_le _ _ h1
    · exact h1
  rcases hstack : d1.stateStack with _ | ⟨top, rest⟩
  · rw [hstack] at hpop; cases hpop
  · rw [hstack] at hpop
    simp only [popFrame, Option.some.injEq] at hpop
    subst hpop
    rw [hs] at hstack
    rw [hstack] at h2
    simp only [descendChain, Bool.and_eq_true, decide_eq_true_eq] at h2
    simp only [limitInv, Bool.and_eq_true, decide_eq_true_eq, descendChain]
    exact ⟨le_trans hp h2.1, h2.2⟩

/-- The run of any limit-operation sequence preserves the limit-stack
invariant. -/
theorem runOps_inv : ∀ (ops : List LimitOp) (d dOut : Decoder),
    limitInv d = true → runOps ops d = some dOut → limitInv dOut = true := by
  intro ops
  induction ops with
  | nil =>
      intro d dOut h hrun
      simp only [runOps, Option.some.injEq] at hrun
      subst hrun; exact h
  | cons op rest ih =>
      intro d dOut h hrun
      cases op with
      | push n =>
          simp only [runOps] at hrun
          exact ih _ _ (pushLimit_inv d (n : Int) (by positivity) h) hrun
      | pop =>
          simp only [runOps] at hrun
          rcases hpop : d.PopLimit with _ | d1
          · rw [hpop] at hrun; cases hrun
          · rw [hpop] at hrun
            exact ih _ _ (popLimit_inv d d1 h hpop) hrun

/-- C8: a PushLimit whose window end exceeds the enclosing limit records
an error (saved with the enclosing frame, from where PopLimit restores
it) and clamps the new limit to the current position; and across every
sequence of PushLimit and PopLimit operations from a well-formed state
the limit-stack invariant holds — in particular the active limit never
exceeds the enclosing saved limit. -/
theorem c8_pushLimit_clamps_and_bounded :
    (∀ (d : Decoder) (n : Int), d.pos + n > d.limit →
      (d.PushLimit n).limit = d.pos ∧
      ∃ e rest, (d.PushLimit n).stateStack = ⟨d.limit, some e⟩ :: rest) ∧
    (∀ (ops : List LimitOp) (d dOut : Decoder), limitInv d = true →
      runOps ops d = some dOut →
      limitInv dOut = true ∧
      ∀ top rest, dOut.stateStack = top :: rest → dOut.limit ≤ top.limit) := by
  constructor
  · intro d n hov
    constructor
    · simp [Decoder.PushLimit, hov]
    · rcases hd : d.err with _ | e
      · exact ⟨"trying to read bytes beyond buffer end", d.stateStack,
          by simp [Decoder.PushLimit, hov, Decoder.SetError, hd]⟩
      · exact ⟨e, d.stateStack,
          by simp [Decoder.PushLimit, hov, Decoder.SetError, hd]⟩
  · intro ops d dOut h hrun
    have hinv := runOps_inv ops d dOut h hrun
    refine ⟨hinv, fun top rest hstack => ?_⟩
    simp only [limitInv, Bool.and_eq_true, decide_eq_true_eq, hstack,
      descendChain] at hinv
    exact hinv.2.1

/-- Decoder for the C8 witness: a four-byte stream with a two-byte limit
window already installed. -/
def c8Decoder : Decoder :=
  (NewBytesDecoder [1, 2, 3, 4] .little .explicitVR).PushLimit 2

/-- Final state of the C8 witness run: push 2, push 99 (rejected and
clamped), pop. -/
def c8OutDecoder : Decoder :=
  { data := [1, 2, 3, 4], byteorder := .little, implicit := .explicitVR,
    pos := 0, limit := 2,
    err := some "trying to read bytes beyond buffer end",
    codingSystem := ⟨none, none, none⟩,
    stateStack := [⟨9223372036854775807, none⟩] }

/-- C8 witness: the clamping part applied to the concrete decoder with
window end 99 beyond a two-byte limit, and the invariant part applied to
the concrete run push 2, push 99, pop. -/
theorem c8_limit_witness :
    ((c8Decoder.PushLimit 99).limit = c8Decoder.pos ∧
      ∃ e rest, (c8Decoder.PushLimit 99).stateStack =
        ⟨c8Decoder.limit, some e⟩ :: rest) ∧
    limitInv c8OutDecoder = true ∧
    c8OutDecoder.limit ≤ 9223372036854775807 := by
  have ha := c8_pushLimit_clamps_and_bounded.1 c8Decoder 99 (by decide)
  have hb := c8_pushLimit_clamps_and_bounded.2 [.push 2, .push 99, .pop]
    (NewBytesDecoder [1, 2, 3, 4] .little .explicitVR) c8OutDecoder
    (by decide) (by decide)
  exact ⟨ha, hb.1, hb.2 ⟨9223372036854775807, none⟩ [] rfl⟩

/-- C10: WriteElement on a PixelData element with the undefined-length
flag clear demands exactly one frame in the PixelDataInfo; any other
frame count aborts through DoAssert — a process panic, the error branch
here — rather than recording a deferred error on the encoder. -/
theorem c10_pixeldata_frame_count_asserts :
    ∀ (dict : TagDict) (e : Encoder) (p : PixelDataInfo),
      p.frames.length ≠ 1 →
      WriteElement dict e ⟨PixelData, "OW", false, [.pixel p]⟩ =
        .error "DoAssert: len(image.Frames) == 1" := by
  intro dict e p hp
  have hkind : GetVRKind PixelData "OW" = GetVRKind PixelData "OW" := rfl
  unfold WriteElement
  rcases hf : Find dict PixelData with msg | entry
  · simp [hf, hp]
    rfl
  · have hke : GetVRKind PixelData entry.vr = GetVRKind PixelData "OW" := by
      simp [GetVRKind, PixelData, Item]
    simp [hf, hke, hp]
    rfl

/-- C10 witness: the assertion fired by a concrete two-frame
PixelDataInfo under a defined length. -/
theorem c10_pixeldata_witness :
    WriteElement [] (NewBytesEncoder .little .explicitVR)
      ⟨PixelData, "OW", false, [.pixel ⟨[], [[], []]⟩]⟩ =
      .error "DoAssert: len(image.Frames) == 1" :=
  c10_pixeldata_frame_count_asserts [] (NewBytesEncoder .little .explicitVR)
    ⟨[], [[], []]⟩ (by decide)

end Odicom
